import Mathlib

/-!
Shallow embedding of `account_statement_import_sheet_parser.py`
(module `account_statement_import_txt_xlsx`): the configurable
bank-statement sheet parser.  Python runtime values that flow through the
parser are modelled by `PVal`; Python exceptions by `Except PErr`;
`decimal.Decimal` values by exact rationals (`Rat`); `datetime` values by
their epoch-second count (`Int`).  The tabular source adapter (xlrd
workbook / csv reader, encoding detection) is external library I/O and is
not embedded: the pipeline is modelled from the decoded header row and the
decoded list of data rows onwards.
-/

namespace SheetParser

/-- Python `str.strip()` (with no argument): drop whitespace from both
ends.  `Char.isWhitespace` approximates Python's whitespace set. -/
def trimList (cs : List Char) : List Char :=
  ((cs.dropWhile Char.isWhitespace).reverse.dropWhile Char.isWhitespace).reverse

/-- One step bound of `replaceList`: replace with non-overlapping
left-to-right matches, consuming at least one character per step (fuel is
the input length). -/
def replaceGo (pat rep : List Char) : Nat → List Char → List Char
  | 0, s => s
  | _ + 1, [] => []
  | fuel + 1, c :: rest =>
    if pat.isPrefixOf (c :: rest) then
      rep ++ replaceGo pat rep fuel (rest.drop (pat.length - 1))
    else c :: replaceGo pat rep fuel rest

/-- Python `str.replace(pat, rep)` for a nonempty pattern: replace every
non-overlapping occurrence, scanning left to right.  (Python's behaviour
on the empty pattern — inserting between characters — is not modelled;
the configured separators are nonempty.) -/
def replaceList (s pat rep : List Char) : List Char :=
  if pat = [] then s else replaceGo pat rep s.length s

/-- Python `str.replace` on `String`s. -/
def pyReplace (s pat rep : String) : String :=
  ⟨replaceList s.data pat.data rep.data⟩

/-- Step of `splitOnList` (fuel is the input length). -/
def splitGo (sep : List Char) : Nat → List Char → List Char →
    List (List Char)
  | 0, acc, s => [acc.reverse ++ s]
  | _ + 1, acc, [] => [acc.reverse]
  | fuel + 1, acc, c :: rest =>
    if sep.isPrefixOf (c :: rest) then
      acc.reverse :: splitGo sep fuel [] (rest.drop (sep.length - 1))
    else splitGo sep fuel (c :: acc) rest

/-- Python `str.split(sep)` for a nonempty separator. -/
def splitOnList (s sep : List Char) : List (List Char) :=
  if sep = [] then [s] else splitGo sep s.length [] s

/-- Join strings with a single space (`" ".join(...)`). -/
def joinSpace (l : List String) : String :=
  ⟨List.intercalate [' '] (l.map String.data)⟩

/-- A Python runtime value as it occurs in the parser: `None`, `str`,
`int`, `float` (represented by the exact rational value of the double),
`decimal.Decimal` (exact rational) or `datetime` (epoch seconds). -/
inductive PVal where
  | vNone : PVal
  | vStr (s : String) : PVal
  | vInt (n : Int) : PVal
  | vFloat (q : Rat) : PVal
  | vDec (q : Rat) : PVal
  | vDate (t : Int) : PVal
deriving DecidableEq, Repr

/-- Python exceptions raised by the parser or by the library calls it
makes (`ValueError` from `list.index` is the `UnknownColumn` condition of
the spec; `InvalidOperation` from `Decimal()` is `MalformedNumber`). -/
inductive PErr where
  | unknownColumn : PErr
  | malformedNumber : PErr
  | indexError : PErr
  | attributeError : PErr
  | keyError : PErr
  | strptimeError : PErr
  | typeError : PErr
deriving DecidableEq, Repr

instance {ε α : Type} [DecidableEq ε] [DecidableEq α] :
    DecidableEq (Except ε α) := fun a b =>
  match a, b with
  | .ok x, .ok y =>
    if h : x = y then .isTrue (by rw [h])
    else .isFalse (by intro hc; cases hc; exact h rfl)
  | .error x, .error y =>
    if h : x = y then .isTrue (by rw [h])
    else .isFalse (by intro hc; cases hc; exact h rfl)
  | .ok _, .error _ => .isFalse (by intro hc; cases hc)
  | .error _, .ok _ => .isFalse (by intro hc; cases hc)

/-- Python truthiness of the values above. -/
def pyTruthy : PVal → Bool
  | .vNone => false
  | .vStr s => s ≠ ""
  | .vInt n => n ≠ 0
  | .vFloat q => q ≠ 0
  | .vDec q => q ≠ 0
  | .vDate _ => true

/-- The numeric value of a Python number (`int`, `float` or `Decimal`). -/
def numVal : PVal → Option Rat
  | .vInt n => some (n : Rat)
  | .vFloat q => some q
  | .vDec q => some q
  | _ => none

/-- Python `==`: numbers compare by value across `int`/`float`/`Decimal`;
strings compare as strings; values of unrelated types are unequal. -/
def pyEq (a b : PVal) : Bool :=
  match numVal a, numVal b with
  | some x, some y => x == y
  | _, _ =>
    match a, b with
    | .vNone, .vNone => true
    | .vStr x, .vStr y => x == y
    | .vDate x, .vDate y => x == y
    | _, _ => false

/-- Python `a or b`. -/
def pyOr (a b : PVal) : PVal := if pyTruthy a then a else b

/-- Python `abs()` on a number; `TypeError` otherwise. -/
def pyAbs : PVal → Except PErr PVal
  | .vInt n => .ok (.vInt |n|)
  | .vFloat q => .ok (.vFloat |q|)
  | .vDec q => .ok (.vDec |q|)
  | _ => .error .typeError

/-- Python unary `-` on a number; `TypeError` otherwise. -/
def pyNeg : PVal → Except PErr PVal
  | .vInt n => .ok (.vInt (-n))
  | .vFloat q => .ok (.vFloat (-q))
  | .vDec q => .ok (.vDec (-q))
  | _ => .error .typeError

/-- `Decimal.copy_abs`; every other value lacks the method
(`AttributeError`). -/
def pyCopyAbs : PVal → Except PErr PVal
  | .vDec q => .ok (.vDec |q|)
  | _ => .error .attributeError

/-- Python `str()` of the values above.  The renderings of non-string
values are approximations of CPython's formatting; the development only
inspects `pyStr` on strings. -/
def pyStr : PVal → String
  | .vNone => "None"
  | .vStr s => s
  | .vInt n => toString n
  | .vFloat q => toString q
  | .vDec q => toString q
  | .vDate t => toString t

/-- Python `int()` of a decimal string: surrounding whitespace, an
optional sign, then decimal digits (numeric-literal underscores are not
modelled). -/
def pyInt (s : String) : Option Int :=
  let cs := trimList s.data
  let signAndDigits : Bool × List Char :=
    match cs with
    | '-' :: r => (true, r)
    | '+' :: r => (false, r)
    | r => (false, r)
  let neg := signAndDigits.1
  let ds := signAndDigits.2
  if ds ≠ [] ∧ ds.all Char.isDigit then
    let v : Int := ds.foldl (fun a c => a * 10 + ((c.toNat : Int) - 48)) 0
    some (if neg then -v else v)
  else none

/-- The numeric value of a list of decimal digit characters. -/
def digitsVal (cs : List Char) : Nat :=
  cs.foldl (fun a c => a * 10 + (c.toNat - 48)) 0

/-- Split an optional leading sign (`true` = negative). -/
def splitSign : List Char → Bool × List Char
  | '+' :: r => (false, r)
  | '-' :: r => (true, r)
  | cs => (false, cs)

/-- Longest digit prefix and the rest. -/
def takeDigits (cs : List Char) : List Char × List Char :=
  (cs.takeWhile Char.isDigit, cs.dropWhile Char.isDigit)

/-- Unsigned mantissa of a decimal literal: digits with an optional
fractional part.  Returns the mantissa digits' value, the length of the
fractional part, and the remaining characters. -/
def decodeUnsigned (cs : List Char) : Option (Nat × Nat × List Char) :=
  let ip := (takeDigits cs).1
  let rest := (takeDigits cs).2
  match rest with
  | '.' :: rest2 =>
    let fp := (takeDigits rest2).1
    let rest3 := (takeDigits rest2).2
    if ip.isEmpty ∧ fp.isEmpty then none
    else some (digitsVal (ip ++ fp), fp.length, rest3)
  | _ => if ip.isEmpty then none else some (digitsVal ip, 0, rest)

/-- Optional exponent part of a decimal literal. -/
def decodeExp (cs : List Char) : Option Int :=
  match cs with
  | [] => some 0
  | 'e' :: rest | 'E' :: rest =>
    let sr := splitSign rest
    let ds := (takeDigits sr.2).1
    let rest3 := (takeDigits sr.2).2
    if ds.isEmpty ∨ ¬rest3.isEmpty then none
    else some (if sr.1 then -(digitsVal ds : Int) else (digitsVal ds : Int))
  | _ => none

/-- Scale a rational by a power of ten. -/
def scalePow10 (m : Rat) (e : Int) : Rat :=
  if 0 ≤ e then m * ((10 : Rat) ^ e.toNat) else m / ((10 : Rat) ^ (-e).toNat)

/-- `decimal.Decimal(str)` restricted to finite decimal literals:
surrounding whitespace, optional sign, digits with optional fractional
part, optional decimal exponent.  The special literals (`NaN`,
`Infinity`) and non-ASCII digits are not modelled. -/
def decodeDecimal (s : String) : Option Rat :=
  match decodeUnsigned (splitSign (trimList s.data)).2 with
  | none => none
  | some (m, fl, rest) =>
    match decodeExp rest with
    | none => none
    | some e =>
      some (if (splitSign (trimList s.data)).1 then
              -scalePow10 (m : Rat) (e - (fl : Int))
            else scalePow10 (m : Rat) (e - (fl : Int)))

/-- The statement-mapping record (`account.statement.import.sheet.mapping`).
The column-spec fields mirror the names returned by `_get_column_names`;
an unconfigured (falsy) Odoo `Char` field is `none`.  The mapping model
itself is not part of this repository, so its derived accessors are
modelled from the spec: `thousands_sep`/`decimal_sep` are the pair
returned by `_get_float_separators`, `debit_value` is the configured
debit token of the debit/credit indicator, and `timestamp_format` models
`datetime.strptime` with the configured format string as the partial
text-to-timestamp function it denotes. -/
structure Mapping where
  timestamp_column : Option String := none
  currency_column : Option String := none
  amount_column : Option String := none
  amount_debit_column : Option String := none
  amount_credit_column : Option String := none
  balance_column : Option String := none
  original_currency_column : Option String := none
  original_amount_column : Option String := none
  debit_credit_column : Option String := none
  transaction_id_column : Option String := none
  description_column : Option String := none
  notes_column : Option String := none
  reference_column : Option String := none
  partner_name_column : Option String := none
  bank_name_column : Option String := none
  bank_account_column : Option String := none
  no_header : Bool := false
  thousands_sep : String := ","
  decimal_sep : String := "."
  debit_value : String := "D"
  timestamp_format : String → Option Int := fun _ => none

/-- Resolved physical column indexes per logical field, in the order of
`_get_column_names` (the `columns` dictionary). -/
structure Columns where
  timestamp_column : List Int := []
  currency_column : List Int := []
  amount_column : List Int := []
  amount_debit_column : List Int := []
  amount_credit_column : List Int := []
  balance_column : List Int := []
  original_currency_column : List Int := []
  original_amount_column : List Int := []
  debit_credit_column : List Int := []
  transaction_id_column : List Int := []
  description_column : List Int := []
  notes_column : List Int := []
  reference_column : List Int := []
  partner_name_column : List Int := []
  bank_name_column : List Int := []
  bank_account_column : List Int := []
deriving DecidableEq, Repr

/-- Truthiness of an optional Odoo `Char` field (`False`/`""` are falsy). -/
def optStrTruthy : Option String → Bool
  | none => false
  | some s => s ≠ ""

/-- The comma-separated tokens of a column spec: split on `","` when a
comma occurs, else the single (possibly falsy) value.  A falsy field is
represented by the empty token, which the resolution loop skips, exactly
as Python's `if not column_name_or_index: continue` does. -/
def specTokens : Option String → List String
  | none => [""]
  | some s =>
    if s.data.contains ',' then (splitOnList s.data [',']).map String.mk
    else [s]

/-- The token loop of `_get_column_indexes`: a falsy token is skipped;
in `no_header` mode a token is parsed with `int()` and silently dropped
when non-numeric; otherwise it is looked up with `header.index`, whose
`ValueError` is the `UnknownColumn` failure. -/
def getColumnIndexesGo (header : List String) (noHeader : Bool) :
    List String → Except PErr (List Int)
  | [] => .ok []
  | tok :: rest =>
    if tok = "" then getColumnIndexesGo header noHeader rest
    else if noHeader then
      match pyInt tok with
      | some i => do
        let r ← getColumnIndexesGo header noHeader rest
        pure (i :: r)
      | none => getColumnIndexesGo header noHeader rest
    else
      match header.findIdx? (fun h => h == tok) with
      | some i => do
        let r ← getColumnIndexesGo header noHeader rest
        pure ((i : Int) :: r)
      | none => .error .unknownColumn

/-- `_get_column_indexes`: resolve one column spec to physical
indexes. -/
def getColumnIndexes (header : List String) (spec : Option String)
    (noHeader : Bool) : Except PErr (List Int) :=
  getColumnIndexesGo header noHeader (specTokens spec)

/-- The mapping's column specs in the order of `_get_column_names`. -/
def columnSpecs (m : Mapping) : List (Option String) :=
  [m.timestamp_column, m.currency_column, m.amount_column,
   m.amount_debit_column, m.amount_credit_column, m.balance_column,
   m.original_currency_column, m.original_amount_column,
   m.debit_credit_column, m.transaction_id_column, m.description_column,
   m.notes_column, m.reference_column, m.partner_name_column,
   m.bank_name_column, m.bank_account_column]

/-- Pack the sixteen resolved index lists into the `columns` record. -/
def toColumns (l : List (List Int)) : Columns :=
  ⟨l.getD 0 [], l.getD 1 [], l.getD 2 [], l.getD 3 [], l.getD 4 [],
   l.getD 5 [], l.getD 6 [], l.getD 7 [], l.getD 8 [], l.getD 9 [],
   l.getD 10 [], l.getD 11 [], l.getD 12 [], l.getD 13 [], l.getD 14 [],
   l.getD 15 []⟩

/-- The `columns` dictionary comprehension of `_parse_lines`: resolve
every logical field, in order, propagating the first failure. -/
def resolveColumns (header : List String) (m : Mapping) :
    Except PErr Columns :=
  ((columnSpecs m).mapM (fun s => getColumnIndexes header s m.no_header)).map
    toColumns

/-- Python list indexing `values[i]`, including negative indexing;
`none` is an `IndexError`. -/
def pyIndex (values : List PVal) (i : Int) : Option PVal :=
  let j : Int := if i < 0 then i + values.length else i
  if j < 0 then none else values.get? j.toNat

/-- Whether a value is a `str`. -/
def isStr : PVal → Bool
  | .vStr _ => true
  | _ => false

/-- The underlying string of a `str` value. -/
def strOf : PVal → String
  | .vStr s => s
  | _ => ""

/-- `_get_values_from_column`: collect the cells at the resolved indexes
whose index is at most `len(values) - 1` (resolved indexes are always
`int`s, so the comprehension's other disjunct is dead code); join with a
single space when every collected cell is a string, else return the first
collected cell.  An empty collection joins to `""`; a retained negative
index below `-len(values)` is an `IndexError`. -/
def getValuesFromColumn (values : List PVal) (indexes : List Int) :
    Except PErr PVal := do
  let kept := indexes.filter (fun i => i ≤ (values.length : Int) - 1)
  let contentL ← kept.mapM (fun i =>
    match pyIndex values i with
    | some c => Except.ok c
    | none => Except.error PErr.indexError)
  if contentL.all isStr then
    .ok (.vStr (joinSpace (contentL.map strOf)))
  else
    match contentL with
    | c :: _ => .ok c
    | [] => .error .indexError

/-- `_parse_decimal`: a `Decimal` passes through; a `float` is coerced
to the exact decimal value of the double; text has every occurrence of
the thousands separator stripped and the decimal separator replaced by
`"."` before being parsed as an exact decimal.  A remaining non-decimal
text is the `MalformedNumber` failure; a non-text, non-numeric value has
no `.replace` method. -/
def parseDecimal (value : PVal) (m : Mapping) : Except PErr Rat :=
  match value with
  | .vDec q => .ok q
  | .vFloat q => .ok q
  | .vStr s =>
    match decodeDecimal (pyReplace (pyReplace s m.thousands_sep "")
        m.decimal_sep ".") with
    | some q => .ok q
    | none => .error .malformedNumber
  | _ => .error .attributeError

/-- One parsed statement line (the dictionary built by `_parse_row`);
`Option` fields are the keys only present when their column yielded a
non-`None` value. -/
structure Line where
  timestamp : Int
  amount : PVal
  currency : PVal
  original_amount : PVal
  original_currency : PVal
  balance : Option Rat := none
  transaction_id : Option PVal := none
  description : Option PVal := none
  notes : Option PVal := none
  reference : Option PVal := none
  partner_name : Option PVal := none
  bank_name : Option PVal := none
  bank_account : Option PVal := none
deriving DecidableEq, Repr

/-- A dictionary entry: present unless the value is `None`. -/
def asOpt (v : PVal) : Option PVal := if v = .vNone then none else some v

/-- The `_decimal` closure of `_parse_row`: `None` when the column is
unconfigured, else the parsed decimal of the extracted value. -/
def decimalColumn (m : Mapping) (values : List PVal) (indexes : List Int) :
    Except PErr PVal :=
  if indexes = [] then pure .vNone
  else do
    let v ← getValuesFromColumn values indexes
    let q ← parseDecimal v m
    pure (.vDec q)

/-- An optional column of `_parse_row`: extracted when configured, else
`None`. -/
def optCol (values : List PVal) (indexes : List Int) : Except PErr PVal :=
  if indexes = [] then pure .vNone
  else getValuesFromColumn values indexes

/-- The currency of the row: the extracted currency column when
configured, else the statement's home currency code. -/
def currencyStage (currencyCode : String) (values : List PVal)
    (cols : Columns) : Except PErr PVal :=
  if cols.currency_column = [] then pure (.vStr currencyCode)
  else getValuesFromColumn values cols.currency_column

/-- The amount resolution of `_parse_row` (its lines 208-212): the
explicit amount column, else the absolute value of the debit column,
else the negated absolute value of the credit column, each tried only
while the previous result is falsy. -/
def amountStage (m : Mapping) (values : List PVal) (cols : Columns) :
    Except PErr PVal := do
  let amount ← decimalColumn m values cols.amount_column
  let amount ←
    if pyTruthy amount then pure amount
    else do
      let d ← decimalColumn m values cols.amount_debit_column
      pyAbs (pyOr d (.vInt 0))
  if pyTruthy amount then pure amount
  else do
    let c ← decimalColumn m values cols.amount_credit_column
    let a ← pyAbs (pyOr c (.vInt 0))
    pyNeg a

/-- The timestamp conversion of `_parse_row`: text is parsed with
`datetime.strptime` against the configured format, a typed date cell
passes through.  In the source a numeric timestamp cell flows on unparsed
and makes the import fail later (in `sorted`/`.date()`); the model fails
at this point instead. -/
def timestampStage (m : Mapping) (v : PVal) : Except PErr Int :=
  match v with
  | .vStr s =>
    match m.timestamp_format s with
    | some t => pure t
    | none => .error .strptimeError
  | .vDate t => pure t
  | _ => .error .typeError

/-- The debit/credit indicator step of `_parse_row` (its lines 277-281):
when the indicator value is truthy, the amount becomes its
`copy_abs`, negated when the indicator equals the configured debit
token. -/
def indicatorStage (m : Mapping) (debitCredit amount : PVal) :
    Except PErr PVal :=
  if pyTruthy debitCredit then do
    let a ← pyCopyAbs amount
    if pyEq debitCredit (.vStr m.debit_value) then pyNeg a else pure a
  else pure amount

/-- The original-amount step of `_parse_row` (its lines 282-287): when
truthy, the parsed decimal with the sign of the resolved amount copied
onto it (`Decimal.copy_sign`; no negative zero reaches this point), else
the float `0.0`. -/
def originalAmountStage (m : Mapping) (originalAmount amount : PVal) :
    Except PErr PVal :=
  if pyTruthy originalAmount then do
    let q ← parseDecimal originalAmount m
    match numVal amount with
    | some s => pure (.vDec (if s < 0 then -|q| else |q|))
    | none => .error .typeError
  else pure (.vFloat 0)

/-- The raw values extracted by `_parse_row` before its currency filter
(source lines 194-268): the raw timestamp cell, the resolved currency,
the fully resolved pre-indicator amount, and the raw optional cells. -/
structure RowRaw where
  timestamp : PVal
  currency : PVal
  amount : PVal
  balance : PVal
  original_currency : PVal
  original_amount : PVal
  debit_credit : PVal
  transaction_id : PVal
  description : PVal
  notes : PVal
  reference : PVal
  partner_name : PVal
  bank_name : PVal
  bank_account : PVal
deriving DecidableEq, Repr

/-- The extraction phase of `_parse_row` (its lines 194-268), in the
source's evaluation order: the amount columns are parsed here, before
the currency filter. -/
def extractRow (m : Mapping) (currencyCode : String) (values : List PVal)
    (cols : Columns) : Except PErr RowRaw := do
  let timestampV ← getValuesFromColumn values cols.timestamp_column
  let currency ← currencyStage currencyCode values cols
  let amount ← amountStage m values cols
  let balanceV ← optCol values cols.balance_column
  let originalCurrency ← optCol values cols.original_currency_column
  let originalAmountV ← optCol values cols.original_amount_column
  let debitCredit ← optCol values cols.debit_credit_column
  let transactionId ← optCol values cols.transaction_id_column
  let description ← optCol values cols.description_column
  let notes ← optCol values cols.notes_column
  let reference ← optCol values cols.reference_column
  let partnerName ← optCol values cols.partner_name_column
  let bankName ← optCol values cols.bank_name_column
  let bankAccount ← optCol values cols.bank_account_column
  return { timestamp := timestampV
           currency := currency
           amount := amount
           balance := balanceV
           original_currency := originalCurrency
           original_amount := originalAmountV
           debit_credit := debitCredit
           transaction_id := transactionId
           description := description
           notes := notes
           reference := reference
           partner_name := partnerName
           bank_name := bankName
           bank_account := bankAccount }

/-- The post-filter phase of `_parse_row` (its lines 270-312): discard a
cross-currency row, then convert the timestamp, parse the balance, apply
the debit/credit indicator, resolve the original amount and build the
line dictionary. -/
def finishRow (m : Mapping) (currencyCode : String) (r : RowRaw) :
    Except PErr (Option Line) := do
  if pyEq r.currency (.vStr currencyCode) = false then
    return none
  let timestamp ← timestampStage m r.timestamp
  let balance ←
    if pyTruthy r.balance then do
      let q ← parseDecimal r.balance m
      pure (some q)
    else pure none
  let amount ← indicatorStage m r.debit_credit r.amount
  let originalAmount ← originalAmountStage m r.original_amount amount
  return some
    { timestamp := timestamp
      amount := amount
      currency := r.currency
      original_amount := originalAmount
      original_currency := r.original_currency
      balance := balance
      transaction_id := asOpt r.transaction_id
      description := asOpt r.description
      notes := asOpt r.notes
      reference := asOpt r.reference
      partner_name := asOpt r.partner_name
      bank_name := asOpt r.bank_name
      bank_account := asOpt r.bank_account }

/-- `_parse_row`: one physical row to at most one statement line, in the
source's evaluation order.  `none` is the empty dictionary returned for a
cross-currency row. -/
def parseRow (m : Mapping) (currencyCode : String) (values : List PVal)
    (cols : Columns) : Except PErr (Option Line) := do
  let r ← extractRow m currencyCode values cols
  finishRow m currencyCode r

/-- `_parse_rows`: parse every data row in order, keeping the truthy
(non-empty) results. -/
def parseRows (m : Mapping) (currencyCode : String)
    (rows : List (List PVal)) (cols : Columns) : Except PErr (List Line) :=
  rows.foldlM
    (fun acc values => do
      match ← parseRow m currencyCode values cols with
      | some line => pure (acc ++ [line])
      | none => pure acc)
    []

/-- `_parse_lines` from the decoded header row and data rows onwards
(the xlrd/csv source adapter is external): resolve the columns, then
parse the rows.  With `no_header` the header is `False` and unused. -/
def parseLines (m : Mapping) (currencyCode : String)
    (header : List String) (rows : List (List PVal)) :
    Except PErr (List Line) := do
  let cols ← resolveColumns (if m.no_header then [] else header) m
  parseRows m currencyCode rows cols

/-- Round-half-even of a (nonnegative) rational to an integer. -/
def rhe (a : Rat) : Int :=
  let n := a.floor
  let r := a - (n : Rat)
  if r < 1 / 2 then n
  else if 1 / 2 < r then n + 1
  else if n % 2 = 0 then n else n + 1

/-- Normalize a positive rational to mantissa range `[2^52, 2^53)`,
returning the scaled value and the binary exponent.  Fuel bounds the
binary search; 4200 covers the full double range. -/
def normFloat : Nat → Rat → Int → Rat × Int
  | 0, a, e => (a, e)
  | fuel + 1, a, e =>
    if a < (2 : Rat) ^ (52 : Nat) then normFloat fuel (a * 2) (e - 1)
    else if (2 : Rat) ^ (53 : Nat) ≤ a then normFloat fuel (a / 2) (e + 1)
    else (a, e)

/-- Python `float()` of an exact decimal: the nearest binary64 value
(round half to even), as an exact rational.  Subnormal underflow and
overflow to infinity are outside the modelled range. -/
def roundFloat (q : Rat) : Rat :=
  if q = 0 then 0
  else
    let ne := normFloat 4200 |q| 0
    let k := rhe ne.1
    let v : Rat :=
      if 0 ≤ ne.2 then (k : Rat) * ((2 : Rat) ^ ne.2.toNat)
      else (k : Rat) / ((2 : Rat) ^ (-ne.2).toNat)
    if q < 0 then -v else v

/-- The sort key order of `parse`: `lambda line: line["timestamp"]`. -/
def lineLE (a b : Line) : Prop := a.timestamp ≤ b.timestamp

instance : DecidableRel lineLE := fun a b => Int.decLe a.timestamp b.timestamp

instance : IsTotal Line lineLE := ⟨fun a b => Int.le_total a.timestamp b.timestamp⟩

instance : IsTrans Line lineLE := ⟨fun _ _ _ h h' => le_trans h h'⟩

/-- `sorted(lines, key=lambda line: line["timestamp"])`: Python's sort is
stable, modelled by the (stable) insertion sort on the timestamp key. -/
def sortLines (lines : List Line) : List Line :=
  lines.insertionSort lineLE

/-- One output transaction dictionary of
`_convert_line_to_transactions`.  String-formatted numeric fields
(`str(amount)`, `str(original_amount)`) are modelled by the value being
formatted. -/
structure Transaction where
  date : Int
  amount : PVal
  foreign_currency_id : Option Int := none
  amount_currency : Option PVal := none
  currency_id : Option Int := none
  unique_import_id : Option String := none
  payment_ref : PVal := .vNone
  ref : Option PVal := none
  narration : Option PVal := none
  partner_name : Option PVal := none
  account_number : Option PVal := none
deriving DecidableEq, Repr

/-- `_convert_line_to_transactions`.  The `res.currency` name lookup is
the external collaborator `findCurrency` (an empty search result is
`none`).  The localized `_("N/A")`, `_("Bank: %s; ")` etc. are modelled
by their source strings. -/
def convertLineToTransactions (findCurrency : PVal → Option Int)
    (line : Line) : List Transaction :=
  let timestamp := line.timestamp
  let amount := line.amount
  let currency := line.currency
  let transactionId := (line.transaction_id).getD .vNone
  let description := (line.description).getD .vNone
  let notes := (line.notes).getD .vNone
  let reference := (line.reference).getD .vNone
  let partnerName := (line.partner_name).getD .vNone
  let bankName := (line.bank_name).getD .vNone
  let bankAccount := (line.bank_account).getD .vNone
  -- if original_currency == currency: drop the designation, zero the
  -- foreign amount; the home-amount adoption rebinds only the local
  -- `amount`, which is not read again (the dict already holds the
  -- original `str(amount)`).
  let dropForeign := pyEq line.original_currency currency
  let originalCurrency := if dropForeign then .vNone else line.original_currency
  let originalAmount := if dropForeign then .vStr "0.0" else line.original_amount
  let foreignId : Option Int :=
    if pyTruthy originalCurrency then findCurrency originalCurrency else none
  let amountCurrency : Option PVal :=
    if pyTruthy originalCurrency ∧ pyTruthy originalAmount then
      some originalAmount
    else none
  let currencyId : Option Int :=
    if pyTruthy currency then findCurrency currency else none
  let uniqueImportId : Option String :=
    if pyTruthy transactionId then
      some (pyStr transactionId ++ "-" ++ toString timestamp)
    else none
  let paymentRef := if pyTruthy description then description else .vStr "N/A"
  let note :=
    (if pyTruthy bankName then "Bank: " ++ pyStr bankName ++ "; " else "")
      ++ (if pyTruthy bankAccount then
            "Account: " ++ pyStr bankAccount ++ "; " else "")
      ++ (if pyTruthy transactionId then
            "Transaction ID: " ++ pyStr transactionId ++ "; " else "")
  let narration : Option PVal :=
    if note ≠ "" ∧ pyTruthy notes then
      some (.vStr (pyStr notes ++ "\n" ++ String.mk (trimList note.data)))
    else if note ≠ "" then some (.vStr (String.mk (trimList note.data)))
    else if pyTruthy notes then some notes
    else none
  [{ date := timestamp
     amount := amount
     foreign_currency_id := foreignId
     amount_currency := amountCurrency
     currency_id := currencyId
     unique_import_id := uniqueImportId
     payment_ref := paymentRef
     ref := if pyTruthy reference then some reference else none
     narration := narration
     partner_name := if pyTruthy partnerName then some partnerName else none
     account_number := if pyTruthy bankAccount then some bankAccount else none }]

/-- `timestamp.date()`: the calendar day of the timestamp, modelled as
its epoch-day index. -/
def pyDate (t : Int) : Int := Int.fdiv t 86400

/-- `os.path.basename`. -/
def pyBasename (s : String) : String :=
  String.mk (((splitOnList s.data ['/']).getLast?).getD [])

/-- The single statement dictionary returned by `parse`; `Option` fields
are the keys only present when set. -/
structure StmtData where
  date : Option Int := none
  name : Option String := none
  balance_start : Option Rat := none
  balance_end_real : Option Rat := none
  transactions : List Transaction := []
deriving DecidableEq, Repr

/-- The statement assembly of `parse` (its lines 62-92), from the parsed
line list onwards: with no lines return the single statement with an
empty transaction list and no other keys; otherwise sort by timestamp,
set date and name from the first sorted line and the file name, add the
balance keys exactly when a balance column is configured (`float()` of
the exact decimals), and convert every sorted line to its transactions.
The journal's currency code, account number and code come from the
external journal record. -/
def assemble (m : Mapping) (findCurrency : PVal → Option Int)
    (currencyCode : String) (accountNumber : Option String)
    (journalCode filename : String) (lines : List Line) :
    Except PErr (String × Option String × List StmtData) := do
  if lines.isEmpty then
    return (currencyCode, accountNumber, [{ transactions := [] }])
  match (sortLines lines).head? with
  | none => .error .indexError
  | some firstLine => do
    let balances : Option (Rat × Rat) ←
      if optStrTruthy m.balance_column then do
        let b1 ← match firstLine.balance with
          | some b => pure b
          | none => Except.error PErr.keyError
        let amt1 ← match numVal firstLine.amount with
          | some a => pure a
          | none => Except.error PErr.typeError
        match (sortLines lines).getLast? with
        | none => Except.error PErr.indexError
        | some lastLine =>
          match lastLine.balance with
          | some bn => pure (some (roundFloat (b1 - amt1), roundFloat bn))
          | none => Except.error PErr.keyError
      else pure none
    return (currencyCode, accountNumber,
      [{ date := some (pyDate firstLine.timestamp)
         name := some (journalCode ++ ": " ++ pyBasename filename)
         balance_start := balances.map (·.1)
         balance_end_real := balances.map (·.2)
         transactions :=
           (sortLines lines).flatMap
             (convertLineToTransactions findCurrency) }])

/-- `parse`, from the decoded tabular data onwards: `_parse_lines`, then
the statement assembly above. -/
def parse (m : Mapping) (findCurrency : PVal → Option Int)
    (currencyCode : String) (accountNumber : Option String)
    (journalCode filename : String) (header : List String)
    (rows : List (List PVal)) :
    Except PErr (String × Option String × List StmtData) := do
  let lines ← parseLines m currencyCode header rows
  assemble m findCurrency currencyCode accountNumber journalCode filename
    lines

/-!  Inversion and evaluation lemmas for the embedded pipeline. -/


theorem ebind_ok {α β : Type} {e : Except PErr α} {f : α → Except PErr β}
    {a : α} (h : e = .ok a) : (e >>= f) = f a := by
  subst h; rfl

theorem ebind_err {α β : Type} {e : Except PErr α} {f : α → Except PErr β}
    {ε : PErr} (h : e = .error ε) : (e >>= f) = .error ε := by
  subst h; rfl

theorem extractRow_ok_inv {m : Mapping} {cc : String} {values : List PVal}
    {cols : Columns} {r : RowRaw}
    (h : extractRow m cc values cols = .ok r) :
    getValuesFromColumn values cols.timestamp_column = .ok r.timestamp ∧
    currencyStage cc values cols = .ok r.currency ∧
    amountStage m values cols = .ok r.amount ∧
    optCol values cols.balance_column = .ok r.balance ∧
    optCol values cols.original_currency_column = .ok r.original_currency ∧
    optCol values cols.original_amount_column = .ok r.original_amount ∧
    optCol values cols.debit_credit_column = .ok r.debit_credit ∧
    optCol values cols.transaction_id_column = .ok r.transaction_id ∧
    optCol values cols.description_column = .ok r.description ∧
    optCol values cols.notes_column = .ok r.notes ∧
    optCol values cols.reference_column = .ok r.reference ∧
    optCol values cols.partner_name_column = .ok r.partner_name ∧
    optCol values cols.bank_name_column = .ok r.bank_name ∧
    optCol values cols.bank_account_column = .ok r.bank_account := by
  unfold extractRow at h
  cases h1 : getValuesFromColumn values cols.timestamp_column with
  | error e => rw [ebind_err h1] at h; simp at h
  | ok a1 =>
  rw [ebind_ok h1] at h
  cases h2 : currencyStage cc values cols with
  | error e => rw [ebind_err h2] at h; simp at h
  | ok a2 =>
  rw [ebind_ok h2] at h
  cases h3 : amountStage m values cols with
  | error e => rw [ebind_err h3] at h; simp at h
  | ok a3 =>
  rw [ebind_ok h3] at h
  cases h4 : optCol values cols.balance_column with
  | error e => rw [ebind_err h4] at h; simp at h
  | ok a4 =>
  rw [ebind_ok h4] at h
  cases h5 : optCol values cols.original_currency_column with
  | error e => rw [ebind_err h5] at h; simp at h
  | ok a5 =>
  rw [ebind_ok h5] at h
  cases h6 : optCol values cols.original_amount_column with
  | error e => rw [ebind_err h6] at h; simp at h
  | ok a6 =>
  rw [ebind_ok h6] at h
  cases h7 : optCol values cols.debit_credit_column with
  | error e => rw [ebind_err h7] at h; simp at h
  | ok a7 =>
  rw [ebind_ok h7] at h
  cases h8 : optCol values cols.transaction_id_column with
  | error e => rw [ebind_err h8] at h; simp at h
  | ok a8 =>
  rw [ebind_ok h8] at h
  cases h9 : optCol values cols.description_column with
  | error e => rw [ebind_err h9] at h; simp at h
  | ok a9 =>
  rw [ebind_ok h9] at h
  cases h10 : optCol values cols.notes_column with
  | error e => rw [ebind_err h10] at h; simp at h
  | ok a10 =>
  rw [ebind_ok h10] at h
  cases h11 : optCol values cols.reference_column with
  | error e => rw [ebind_err h11] at h; simp at h
  | ok a11 =>
  rw [ebind_ok h11] at h
  cases h12 : optCol values cols.partner_name_column with
  | error e => rw [ebind_err h12] at h; simp at h
  | ok a12 =>
  rw [ebind_ok h12] at h
  cases h13 : optCol values cols.bank_name_column with
  | error e => rw [ebind_err h13] at h; simp at h
  | ok a13 =>
  rw [ebind_ok h13] at h
  cases h14 : optCol values cols.bank_account_column with
  | error e => rw [ebind_err h14] at h; simp at h
  | ok a14 =>
  rw [ebind_ok h14] at h
  simp only [pure, Except.pure, Except.ok.injEq] at h
  subst h
  exact ⟨rfl, rfl, rfl, rfl, rfl, rfl, rfl, rfl, rfl, rfl, rfl, rfl, rfl, rfl⟩



theorem finishRow_mismatch {m : Mapping} {cc : String} {r : RowRaw}
    (h : pyEq r.currency (.vStr cc) = false) :
    finishRow m cc r = .ok none := by
  unfold finishRow
  rw [if_pos h]
  rfl

theorem finishRow_ok_some_inv {m : Mapping} {cc : String} {r : RowRaw}
    {line : Line} (h : finishRow m cc r = .ok (some line)) :
    pyEq r.currency (.vStr cc) = true ∧
    line.currency = r.currency ∧
    timestampStage m r.timestamp = .ok line.timestamp ∧
    indicatorStage m r.debit_credit r.amount = .ok line.amount ∧
    originalAmountStage m r.original_amount line.amount =
      .ok line.original_amount ∧
    line.original_currency = r.original_currency ∧
    (pyTruthy r.balance = true →
      ∃ q, parseDecimal r.balance m = .ok q ∧ line.balance = some q) ∧
    (pyTruthy r.balance = false → line.balance = none) ∧
    line.transaction_id = asOpt r.transaction_id ∧
    line.description = asOpt r.description ∧
    line.notes = asOpt r.notes := by
  unfold finishRow at h
  cases hc : pyEq r.currency (.vStr cc) with
  | false => rw [if_pos hc] at h; simp [pure, Except.pure] at h
  | true =>
  rw [if_neg (by simp [hc])] at h
  simp only [pure_bind] at h
  cases ht : timestampStage m r.timestamp with
  | error e => rw [ebind_err ht] at h; simp at h
  | ok ts =>
  rw [ebind_ok ht] at h
  cases hb : pyTruthy r.balance with
  | false =>
    rw [if_neg (by simp [hb])] at h
    cases hi : indicatorStage m r.debit_credit r.amount with
    | error e => rw [ebind_err hi] at h; simp at h
    | ok amt =>
    rw [ebind_ok hi] at h
    cases ho : originalAmountStage m r.original_amount amt with
    | error e => rw [ebind_err ho] at h; simp at h
    | ok oa =>
    rw [ebind_ok ho] at h
    simp only [pure, Except.pure, Except.ok.injEq, Option.some.injEq] at h
    subst h
    exact ⟨rfl, rfl, rfl, rfl, ho, rfl, by simp [hb], fun _ => rfl, rfl, rfl,
      rfl⟩
  | true =>
    rw [if_pos (by simp [hb])] at h
    cases hq : parseDecimal r.balance m with
    | error e => rw [ebind_err hq] at h; simp at h
    | ok q =>
    rw [ebind_ok hq] at h
    cases hi : indicatorStage m r.debit_credit r.amount with
    | error e => rw [ebind_err hi] at h; simp at h
    | ok amt =>
    rw [ebind_ok hi] at h
    cases ho : originalAmountStage m r.original_amount amt with
    | error e => rw [ebind_err ho] at h; simp at h
    | ok oa =>
    rw [ebind_ok ho] at h
    simp only [pure, Except.pure, Except.ok.injEq, Option.some.injEq] at h
    subst h
    exact ⟨rfl, rfl, rfl, rfl, ho, rfl, fun _ => ⟨q, rfl, rfl⟩, by simp [hb],
      rfl, rfl, rfl⟩



theorem parseRow_ok_some_inv {m : Mapping} {cc : String}
    {values : List PVal} {cols : Columns} {line : Line}
    (h : parseRow m cc values cols = .ok (some line)) :
    ∃ r, extractRow m cc values cols = .ok r ∧
      finishRow m cc r = .ok (some line) := by
  unfold parseRow at h
  cases he : extractRow m cc values cols with
  | error e => rw [ebind_err he] at h; simp at h
  | ok r => rw [ebind_ok he] at h; exact ⟨r, rfl, h⟩

theorem parseRow_mismatch {m : Mapping} {cc : String} {values : List PVal}
    {cols : Columns} {r : RowRaw}
    (he : extractRow m cc values cols = .ok r)
    (hne : pyEq r.currency (.vStr cc) = false) :
    parseRow m cc values cols = .ok none := by
  unfold parseRow
  rw [ebind_ok he]
  exact finishRow_mismatch hne

theorem parseRow_line_currency {m : Mapping} {cc : String}
    {values : List PVal} {cols : Columns} {line : Line}
    (h : parseRow m cc values cols = .ok (some line)) :
    pyEq line.currency (.vStr cc) = true := by
  obtain ⟨r, _, hf⟩ := parseRow_ok_some_inv h
  obtain ⟨h1, h2, _⟩ := finishRow_ok_some_inv hf
  rw [h2]; exact h1

theorem parseRows_mem {m : Mapping} {cc : String} {cols : Columns}
    {P : Line → Prop}
    (hP : ∀ values line, parseRow m cc values cols = .ok (some line) →
      P line) :
    ∀ {rows : List (List PVal)} {acc lines : List Line},
      List.foldlM
        (fun acc values => do
          match ← parseRow m cc values cols with
          | some line => pure (acc ++ [line])
          | none => pure acc)
        acc rows = .ok lines →
      (∀ l ∈ acc, P l) → ∀ l ∈ lines, P l := by
  intro rows
  induction rows with
  | nil =>
    intro acc lines h hacc l hl
    simp only [List.foldlM_nil, pure, Except.pure, Except.ok.injEq] at h
    subst h
    exact hacc l hl
  | cons v rows ih =>
    intro acc lines h hacc l hl
    rw [List.foldlM_cons] at h
    cases hr : parseRow m cc v cols with
    | error e => rw [ebind_err (ebind_err hr)] at h; simp at h
    | ok o =>
      rw [ebind_ok hr] at h
      cases o with
      | none =>
        simp only [pure_bind] at h
        exact ih h hacc l hl
      | some line =>
        simp only [pure_bind] at h
        refine ih h (fun l' hl' => ?_) l hl
        rcases List.mem_append.mp hl' with hmem | hmem
        · exact hacc l' hmem
        · rw [List.mem_singleton.mp hmem]
          exact hP v line hr

theorem parseRows_prop {m : Mapping} {cc : String} {cols : Columns}
    {rows : List (List PVal)} {lines : List Line} {P : Line → Prop}
    (h : parseRows m cc rows cols = .ok lines)
    (hP : ∀ values line, parseRow m cc values cols = .ok (some line) →
      P line) :
    ∀ l ∈ lines, P l := by
  unfold parseRows at h
  exact parseRows_mem hP h (by simp)

theorem parseLines_ok_inv {m : Mapping} {cc : String}
    {header : List String} {rows : List (List PVal)} {lines : List Line}
    (h : parseLines m cc header rows = .ok lines) :
    ∃ cols, resolveColumns (if m.no_header then [] else header) m =
        .ok cols ∧
      parseRows m cc rows cols = .ok lines := by
  unfold parseLines at h
  cases hc : resolveColumns (if m.no_header then [] else header) m with
  | error e => rw [ebind_err hc] at h; simp at h
  | ok cols => rw [ebind_ok hc] at h; exact ⟨cols, rfl, h⟩



theorem sortLines_length (lines : List Line) :
    (sortLines lines).length = lines.length :=
  List.length_insertionSort lineLE lines

theorem sortLines_ne_nil {lines : List Line} (h : lines ≠ []) :
    sortLines lines ≠ [] := by
  intro hc
  apply h
  have := sortLines_length lines
  rw [hc] at this
  exact List.length_eq_zero.mp this.symm

theorem convert_length (fc : PVal → Option Int) (l : Line) :
    (convertLineToTransactions fc l).length = 1 := rfl

theorem flatMap_convert_length (fc : PVal → Option Int) :
    ∀ ls : List Line,
      (ls.flatMap (convertLineToTransactions fc)).length = ls.length := by
  intro ls
  induction ls with
  | nil => rfl
  | cons x xs ih =>
    simp [List.flatMap_cons, convert_length, ih, Nat.add_comm]

theorem assemble_empty (m : Mapping) (fc : PVal → Option Int)
    (cc : String) (acct : Option String) (jc fn : String) :
    assemble m fc cc acct jc fn [] =
      .ok (cc, acct, [{ transactions := [] }]) := rfl

theorem assemble_balance_false {m : Mapping} {fc : PVal → Option Int}
    {cc : String} {acct : Option String} {jc fn : String}
    {lines : List Line} {firstLine : Line}
    (hne : lines ≠ [])
    (hh : (sortLines lines).head? = some firstLine)
    (hb : optStrTruthy m.balance_column = false) :
    assemble m fc cc acct jc fn lines =
      .ok (cc, acct,
        [{ date := some (pyDate firstLine.timestamp)
           name := some (jc ++ ": " ++ pyBasename fn)
           balance_start := none
           balance_end_real := none
           transactions :=
             (sortLines lines).flatMap
               (convertLineToTransactions fc) }]) := by
  unfold assemble
  rw [if_neg (by simp [hne])]
  simp [pure_bind, hh, hb]
  rfl

theorem assemble_balance_true {m : Mapping} {fc : PVal → Option Int}
    {cc : String} {acct : Option String} {jc fn : String}
    {lines : List Line} {firstLine lastLine : Line} {b1 a1 bn : Rat}
    (hne : lines ≠ [])
    (hh : (sortLines lines).head? = some firstLine)
    (hb : optStrTruthy m.balance_column = true)
    (hb1 : firstLine.balance = some b1)
    (ha1 : numVal firstLine.amount = some a1)
    (hl : (sortLines lines).getLast? = some lastLine)
    (hbn : lastLine.balance = some bn) :
    assemble m fc cc acct jc fn lines =
      .ok (cc, acct,
        [{ date := some (pyDate firstLine.timestamp)
           name := some (jc ++ ": " ++ pyBasename fn)
           balance_start := some (roundFloat (b1 - a1))
           balance_end_real := some (roundFloat bn)
           transactions :=
             (sortLines lines).flatMap
               (convertLineToTransactions fc) }]) := by
  unfold assemble
  rw [if_neg (by simp [hne])]
  simp [pure_bind, hh, hb, hb1, ha1, hl, hbn]
  rfl



theorem assemble_ok_inv {m : Mapping} {fc : PVal → Option Int}
    {cc : String} {acct : Option String} {jc fn : String}
    {lines : List Line} {res : String × Option String × List StmtData}
    (hne : lines ≠ [])
    (h : assemble m fc cc acct jc fn lines = .ok res) :
    ∃ (firstLine : Line) (balances : Option (Rat × Rat)),
      (sortLines lines).head? = some firstLine ∧
      res = (cc, acct,
        [{ date := some (pyDate firstLine.timestamp)
           name := some (jc ++ ": " ++ pyBasename fn)
           balance_start := balances.map (·.1)
           balance_end_real := balances.map (·.2)
           transactions :=
             (sortLines lines).flatMap
               (convertLineToTransactions fc) }]) := by
  unfold assemble at h
  rw [if_neg (by simp [hne])] at h
  simp only [pure_bind] at h
  cases hh : (sortLines lines).head? with
  | none => exact absurd (List.head?_eq_none_iff.mp hh) (sortLines_ne_nil hne)
  | some firstLine =>
  simp only [hh] at h
  cases hb : optStrTruthy m.balance_column with
  | false =>
    rw [if_neg (by simp [hb])] at h
    simp only [pure, Except.pure, Except.ok.injEq] at h
    exact ⟨firstLine, none, rfl, h.symm⟩
  | true =>
    rw [if_pos (by simp [hb])] at h
    cases hb1 : firstLine.balance with
    | none => simp only [hb1] at h; rw [ebind_err rfl] at h; simp at h
    | some b1 =>
    simp only [hb1] at h
    cases ha1 : numVal firstLine.amount with
    | none => simp only [ha1] at h; rw [ebind_err rfl] at h; simp at h
    | some a1 =>
    simp only [ha1] at h
    cases hl : (sortLines lines).getLast? with
    | none => simp only [hl] at h; rw [ebind_err rfl] at h; simp at h
    | some lastLine =>
    simp only [hl] at h
    cases hbn : lastLine.balance with
    | none => simp only [hbn] at h; rw [ebind_err rfl] at h; simp at h
    | some bn =>
    simp only [hbn] at h
    simp only [pure, Except.pure, Except.ok.injEq] at h
    exact ⟨firstLine, some (roundFloat (b1 - a1), roundFloat bn), rfl,
      h.symm⟩


/-- Reduction of a bind on a successful result. -/
theorem okBind {α β : Type} (x : α) (f : α → Except PErr β) :
    (Except.ok x >>= f) = f x := rfl

/-- `pure` into `Except` is `ok`. -/
theorem pureEq {α : Type} (x : α) : (pure x : Except PErr α) = .ok x := rfl

/-- The parsed decimal of a column as the `_decimal` closure returns it:
`Decimal` when configured, `None` when not. -/
def optDec : Option Rat → PVal
  | some q => .vDec q
  | none => .vNone

/-- The value `amountStage` computes, as a function of the three parsed
decimal columns: credit fallback step. -/
def amountPVc : Option Rat → PVal
  | some qc => if qc ≠ 0 then .vDec (-|qc|) else .vInt 0
  | none => .vInt 0

/-- Debit step of the amount resolution value. -/
def amountPVd : Option Rat → Option Rat → PVal
  | some qd, c => if qd ≠ 0 then .vDec |qd| else amountPVc c
  | none, c => amountPVc c

/-- The value `amountStage` computes from the three parsed decimal
columns (`none` = column not configured). -/
def amountPV : Option Rat → Option Rat → Option Rat → PVal
  | some qa, d, c => if qa ≠ 0 then .vDec qa else amountPVd d c
  | none, d, c => amountPVd d c

theorem amountStage_eval {m : Mapping} {values : List PVal}
    {cols : Columns} {a d c : Option Rat}
    (ha : decimalColumn m values cols.amount_column = .ok (optDec a))
    (hd : decimalColumn m values cols.amount_debit_column = .ok (optDec d))
    (hc : decimalColumn m values cols.amount_credit_column =
      .ok (optDec c)) :
    amountStage m values cols = .ok (amountPV a d c) := by
  unfold amountStage
  rw [ebind_ok ha]
  cases a with
  | some qa =>
    by_cases hqa : qa = 0
    · subst hqa
      cases d with
      | some qd =>
        by_cases hqd : qd = 0
        · subst hqd
          cases c with
          | some qc =>
            by_cases hqc : qc = 0
            · subst hqc; simp [hd, hc, okBind, pureEq, optDec, pyTruthy, pyOr, pyAbs, pyNeg, amountPV, amountPVd, amountPVc, abs_eq_zero]
            · simp [hd, hc, okBind, pureEq, optDec, pyTruthy, pyOr, pyAbs, pyNeg, amountPV, amountPVd, amountPVc, abs_eq_zero, hqc]
          | none => simp [hd, hc, okBind, pureEq, optDec, pyTruthy, pyOr, pyAbs, pyNeg, amountPV, amountPVd, amountPVc, abs_eq_zero]
        · simp [hd, hc, okBind, pureEq, optDec, pyTruthy, pyOr, pyAbs, pyNeg, amountPV, amountPVd, amountPVc, abs_eq_zero, hqd]
      | none =>
        cases c with
        | some qc =>
          by_cases hqc : qc = 0
          · subst hqc; simp [hd, hc, okBind, pureEq, optDec, pyTruthy, pyOr, pyAbs, pyNeg, amountPV, amountPVd, amountPVc, abs_eq_zero]
          · simp [hd, hc, okBind, pureEq, optDec, pyTruthy, pyOr, pyAbs, pyNeg, amountPV, amountPVd, amountPVc, abs_eq_zero, hqc]
        | none => simp [hd, hc, okBind, pureEq, optDec, pyTruthy, pyOr, pyAbs, pyNeg, amountPV, amountPVd, amountPVc, abs_eq_zero]
    · simp [hd, hc, okBind, pureEq, optDec, pyTruthy, pyOr, pyAbs, pyNeg, amountPV, amountPVd, amountPVc, abs_eq_zero, hqa]
  | none =>
    cases d with
    | some qd =>
      by_cases hqd : qd = 0
      · subst hqd
        cases c with
        | some qc =>
          by_cases hqc : qc = 0
          · subst hqc; simp [hd, hc, okBind, pureEq, optDec, pyTruthy, pyOr, pyAbs, pyNeg, amountPV, amountPVd, amountPVc, abs_eq_zero]
          · simp [hd, hc, okBind, pureEq, optDec, pyTruthy, pyOr, pyAbs, pyNeg, amountPV, amountPVd, amountPVc, abs_eq_zero, hqc]
        | none => simp [hd, hc, okBind, pureEq, optDec, pyTruthy, pyOr, pyAbs, pyNeg, amountPV, amountPVd, amountPVc, abs_eq_zero]
      · simp [hd, hc, okBind, pureEq, optDec, pyTruthy, pyOr, pyAbs, pyNeg, amountPV, amountPVd, amountPVc, abs_eq_zero, hqd]
    | none =>
      cases c with
      | some qc =>
        by_cases hqc : qc = 0
        · subst hqc; simp [hd, hc, okBind, pureEq, optDec, pyTruthy, pyOr, pyAbs, pyNeg, amountPV, amountPVd, amountPVc, abs_eq_zero]
        · simp [hd, hc, okBind, pureEq, optDec, pyTruthy, pyOr, pyAbs, pyNeg, amountPV, amountPVd, amountPVc, abs_eq_zero, hqc]
      | none => simp [hd, hc, okBind, pureEq, optDec, pyTruthy, pyOr, pyAbs, pyNeg, amountPV, amountPVd, amountPVc, abs_eq_zero]



/-- Claim side, step (c): the absolute value of the credit column,
negated; undetermined when the credit column is not configured. -/
def specBaseCredit : Option Rat → Option Rat
  | some qc => some (-|qc|)
  | none => none

/-- Claim side, step (b): the absolute value of the debit column taken
as positive when non-zero, else step (c). -/
def specBaseDebit : Option Rat → Option Rat → Option Rat
  | some qd, c => if qd ≠ 0 then some |qd| else specBaseCredit c
  | none, c => specBaseCredit c

/-- Claim side: the pre-indicator amount, with descending priority — the
explicit amount column if configured and non-zero, else the debit
magnitude, else the negated credit magnitude. -/
def specBaseAmount : Option Rat → Option Rat → Option Rat → Option Rat
  | some qa, d, c => if qa ≠ 0 then some qa else specBaseDebit d c
  | none, d, c => specBaseDebit d c

/-- Claim side: the final amount — when an indicator value is present
(`some isDebit`, where `isDebit` says whether it equals the configured
debit token) the absolute value of the base amount, negated exactly when
`isDebit`; otherwise the base amount itself. -/
def specFinalAmount (a d c : Option Rat) (ind : Option Bool) :
    Option Rat :=
  match specBaseAmount a d c, ind with
  | some b, some isDebit => some (if isDebit then -|b| else |b|)
  | some b, none => some b
  | none, _ => none

theorem amountPV_shape {a d c : Option Rat} {b : Rat}
    (h : specBaseAmount a d c = some b) :
    amountPV a d c = .vDec b ∨ (amountPV a d c = .vInt 0 ∧ b = 0) := by
  cases a with
  | some qa =>
    by_cases hqa : qa = 0
    · subst hqa
      cases d with
      | some qd =>
        by_cases hqd : qd = 0
        · subst hqd
          cases c with
          | some qc =>
            by_cases hqc : qc = 0
            · subst hqc; simp_all [specBaseAmount, specBaseDebit, specBaseCredit, amountPV, amountPVd, amountPVc, abs_eq_zero]
            · simp_all [specBaseAmount, specBaseDebit, specBaseCredit, amountPV, amountPVd, amountPVc, abs_eq_zero]
          | none => simp_all [specBaseAmount, specBaseDebit, specBaseCredit, amountPV, amountPVd, amountPVc, abs_eq_zero]
        · simp_all [specBaseAmount, specBaseDebit, specBaseCredit, amountPV, amountPVd, amountPVc, abs_eq_zero]
      | none =>
        cases c with
        | some qc =>
          by_cases hqc : qc = 0
          · subst hqc; simp_all [specBaseAmount, specBaseDebit, specBaseCredit, amountPV, amountPVd, amountPVc, abs_eq_zero]
          · simp_all [specBaseAmount, specBaseDebit, specBaseCredit, amountPV, amountPVd, amountPVc, abs_eq_zero]
        | none => simp_all [specBaseAmount, specBaseDebit, specBaseCredit, amountPV, amountPVd, amountPVc, abs_eq_zero]
    · simp_all [specBaseAmount, specBaseDebit, specBaseCredit, amountPV, amountPVd, amountPVc, abs_eq_zero]
  | none =>
    cases d with
    | some qd =>
      by_cases hqd : qd = 0
      · subst hqd
        cases c with
        | some qc =>
          by_cases hqc : qc = 0
          · subst hqc; simp_all [specBaseAmount, specBaseDebit, specBaseCredit, amountPV, amountPVd, amountPVc, abs_eq_zero]
          · simp_all [specBaseAmount, specBaseDebit, specBaseCredit, amountPV, amountPVd, amountPVc, abs_eq_zero]
        | none => simp_all [specBaseAmount, specBaseDebit, specBaseCredit, amountPV, amountPVd, amountPVc, abs_eq_zero]
      · simp_all [specBaseAmount, specBaseDebit, specBaseCredit, amountPV, amountPVd, amountPVc, abs_eq_zero]
    | none =>
      cases c with
      | some qc =>
        by_cases hqc : qc = 0
        · subst hqc; simp_all [specBaseAmount, specBaseDebit, specBaseCredit, amountPV, amountPVd, amountPVc, abs_eq_zero]
        · simp_all [specBaseAmount, specBaseDebit, specBaseCredit, amountPV, amountPVd, amountPVc, abs_eq_zero]
      | none => simp_all [specBaseAmount, specBaseDebit, specBaseCredit, amountPV, amountPVd, amountPVc, abs_eq_zero]



/-- C1: for every parsed row, the pre-indicator amount follows the
descending priority (explicit non-zero amount column, then debit
magnitude taken as positive, then negated credit magnitude), and a
present debit/credit indicator overrides the base sign: the final amount
is the absolute value of the base, negated exactly when the indicator
equals the configured debit token. -/
theorem C1_amount_priority
    (m : Mapping) (cc : String) (values : List PVal) (cols : Columns)
    (line : Line) (a d c : Option Rat) (dc : PVal) (v : Rat)
    (hrun : parseRow m cc values cols = .ok (some line))
    (ha : decimalColumn m values cols.amount_column = .ok (optDec a))
    (hd : decimalColumn m values cols.amount_debit_column = .ok (optDec d))
    (hc : decimalColumn m values cols.amount_credit_column =
      .ok (optDec c))
    (hdc : optCol values cols.debit_credit_column = .ok dc)
    (hspec : specFinalAmount a d c
        (if pyTruthy dc then some (pyEq dc (.vStr m.debit_value))
         else none) = some v) :
    numVal line.amount = some v := by
  obtain ⟨r, he, hf⟩ := parseRow_ok_some_inv hrun
  obtain ⟨-, -, hamt, -, -, -, hdc', -, -, -, -, -, -, -⟩ :=
    extractRow_ok_inv he
  have hra : r.amount = amountPV a d c := by
    have h2 := amountStage_eval ha hd hc
    rw [hamt] at h2
    exact (Except.ok.injEq _ _).mp h2
  have hrdc : r.debit_credit = dc := by
    rw [hdc'] at hdc
    exact (Except.ok.injEq _ _).mp hdc
  obtain ⟨-, -, -, hind, -, -, -, -, -, -, -⟩ := finishRow_ok_some_inv hf
  rw [hra, hrdc] at hind
  unfold indicatorStage at hind
  cases hdctr : pyTruthy dc with
  | true =>
    rw [if_pos (by simp [hdctr])] at hind
    rw [if_pos (by simp [hdctr])] at hspec
    cases hsb : specBaseAmount a d c with
    | none => simp [specFinalAmount, hsb] at hspec
    | some b =>
      rcases amountPV_shape hsb with hpv | ⟨hpv, hb0⟩
      · rw [hpv] at hind
        simp only [pyCopyAbs, okBind] at hind
        cases hdeq : pyEq dc (.vStr m.debit_value) with
        | true =>
          rw [if_pos (by simp [hdeq])] at hind
          simp only [pyNeg, Except.ok.injEq] at hind
          rw [← hind]
          simp [numVal, specFinalAmount, hsb, hdeq] at hspec ⊢
          simp [← hspec]
        | false =>
          rw [if_neg (by simp [hdeq])] at hind
          simp only [pureEq, Except.ok.injEq] at hind
          rw [← hind]
          simp [numVal, specFinalAmount, hsb, hdeq] at hspec ⊢
          simp [← hspec]
      · rw [hpv] at hind
        simp only [pyCopyAbs] at hind
        rw [ebind_err rfl] at hind
        simp at hind
  | false =>
    rw [if_neg (by simp [hdctr])] at hind
    rw [if_neg (by simp [hdctr])] at hspec
    simp only [pureEq, Except.ok.injEq] at hind
    rw [← hind]
    cases hsb : specBaseAmount a d c with
    | none => simp [specFinalAmount, hsb] at hspec
    | some b =>
      simp [specFinalAmount, hsb] at hspec
      rcases amountPV_shape hsb with hpv | ⟨hpv, hb0⟩
      · rw [hpv]
        simp [numVal, hspec]
      · rw [hpv]
        simp [numVal, ← hspec, hb0]




/-- C9: when no rows of the source produce a statement line, `parse`
returns the home currency code, the account number, and a single-element
statement list whose only element has an empty transaction list and no
name, date, balance_start or balance_end_real keys. -/
theorem C9_empty_statement (m : Mapping) (fc : PVal → Option Int)
    (cc : String) (acct : Option String) (jc fn : String)
    (header : List String) (rows : List (List PVal))
    (h : parseLines m cc header rows = .ok []) :
    parse m fc cc acct jc fn header rows =
      .ok (cc, acct,
        [{ date := none, name := none, balance_start := none,
           balance_end_real := none, transactions := [] }]) := by
  unfold parse
  rw [ebind_ok h]
  exact assemble_empty m fc cc acct jc fn

/-- A mapping with a timestamp and a currency column, positional,
used as a concrete test fixture. -/
def wMap9 : Mapping :=
  { timestamp_column := some "0"
    currency_column := some "1"
    no_header := true
    timestamp_format := fun _ => none }

/-- The resolved columns of `wMap9`. -/
def wCols9 : Columns :=
  { timestamp_column := [0], currency_column := [1] }

theorem C9_witness :
    parseLines wMap9 "EUR" [] [[.vDate 0, .vStr "USD"]] = .ok [] ∧
    parse wMap9 (fun _ => none) "EUR" (some "ACC") "J" "s.csv" []
        [[.vDate 0, .vStr "USD"]] =
      .ok ("EUR", some "ACC",
        [{ date := none, name := none, balance_start := none,
           balance_end_real := none, transactions := [] }]) :=
  ⟨by decide,
   C9_empty_statement wMap9 (fun _ => none) "EUR" (some "ACC") "J" "s.csv"
     [] [[.vDate 0, .vStr "USD"]] (by decide)⟩



/-- C2: a row whose resolved currency differs from the home currency
yields no statement line; every parsed line's currency equals the home
currency; and the final statement holds exactly one transaction per
surviving line, so a filtered row contributes no transaction. -/
theorem C2_currency_filter :
    (∀ (m : Mapping) (cc : String) (values : List PVal) (cols : Columns)
        (r : RowRaw),
        extractRow m cc values cols = .ok r →
        pyEq r.currency (.vStr cc) = false →
        parseRow m cc values cols = .ok none)
    ∧ (∀ (m : Mapping) (cc : String) (cols : Columns)
        (rows : List (List PVal)) (lines : List Line),
        parseRows m cc rows cols = .ok lines →
        ∀ l ∈ lines, pyEq l.currency (.vStr cc) = true)
    ∧ (∀ (m : Mapping) (fc : PVal → Option Int) (cc : String)
        (acct : Option String) (jc fn : String) (header : List String)
        (rows : List (List PVal))
        (res : String × Option String × List StmtData),
        parse m fc cc acct jc fn header rows = .ok res →
        ∃ lines, parseLines m cc header rows = .ok lines ∧
          (∀ l ∈ lines, pyEq l.currency (.vStr cc) = true) ∧
          res.2.2.length = 1 ∧
          res.2.2.head?.map (fun d => d.transactions.length) =
            some lines.length) := by
  refine ⟨?_, ?_, ?_⟩
  · intro m cc values cols r he hne
    exact parseRow_mismatch he hne
  · intro m cc cols rows lines h
    exact parseRows_prop h (fun values line hr => parseRow_line_currency hr)
  · intro m fc cc acct jc fn header rows res h
    unfold parse at h
    cases hl : parseLines m cc header rows with
    | error e => rw [ebind_err hl] at h; simp at h
    | ok lines =>
    rw [ebind_ok hl] at h
    refine ⟨lines, rfl, ?_, ?_⟩
    · obtain ⟨cols, -, hpr⟩ := parseLines_ok_inv hl
      exact parseRows_prop hpr
        (fun values line hr => parseRow_line_currency hr)
    · by_cases hemp : lines = []
      · subst hemp
        rw [assemble_empty] at h
        simp only [Except.ok.injEq] at h
        rw [← h]
        exact ⟨rfl, rfl⟩
      · obtain ⟨fl, bal, -, hres⟩ := assemble_ok_inv hemp h
        subst hres
        refine ⟨rfl, ?_⟩
        show some
            (((sortLines lines).flatMap
              (convertLineToTransactions fc)).length) =
          some lines.length
        rw [flatMap_convert_length, sortLines_length]

/-- C10: a cross-currency row makes `_parse_row` return before the
timestamp and balance texts are parsed — an unparsable timestamp or
balance there never raises — while the amount columns are parsed before
the currency filter and an unparsable amount aborts even such a row. -/
theorem C10_cross_currency_short_circuit :
    (∀ (m : Mapping) (cc : String) (values : List PVal) (cols : Columns)
        (r : RowRaw) (et eb : PErr),
        extractRow m cc values cols = .ok r →
        pyEq r.currency (.vStr cc) = false →
        timestampStage m r.timestamp = .error et →
        parseDecimal r.balance m = .error eb →
        parseRow m cc values cols = .ok none)
    ∧ (∀ (m : Mapping) (cc : String) (values : List PVal) (cols : Columns)
        (tv cv : PVal) (e : PErr),
        getValuesFromColumn values cols.timestamp_column = .ok tv →
        currencyStage cc values cols = .ok cv →
        amountStage m values cols = .error e →
        parseRow m cc values cols = .error e) := by
  constructor
  · intro m cc values cols r et eb he hne _ _
    exact parseRow_mismatch he hne
  · intro m cc values cols tv cv e h1 h2 h3
    have hex : extractRow m cc values cols = .error e := by
      unfold extractRow
      rw [ebind_ok h1, ebind_ok h2, ebind_err h3]
    unfold parseRow
    rw [ebind_err hex]



/-- The raw row extracted from the cross-currency fixture row. -/
def wR9 : RowRaw :=
  { timestamp := .vDate 0, currency := .vStr "USD", amount := .vInt 0,
    balance := .vNone, original_currency := .vNone,
    original_amount := .vNone, debit_credit := .vNone,
    transaction_id := .vNone, description := .vNone, notes := .vNone,
    reference := .vNone, partner_name := .vNone, bank_name := .vNone,
    bank_account := .vNone }

/-- The line parsed from the same-currency fixture row. -/
def wL2 : Line :=
  { timestamp := 0, amount := .vInt 0, currency := .vStr "EUR",
    original_amount := .vFloat 0, original_currency := .vNone }

/-- The statement produced from the same-currency fixture row. -/
def wD2 : StmtData :=
  { date := some 0, name := some "J: s.csv",
    transactions := [{ date := 0, amount := .vInt 0,
                       payment_ref := .vStr "N/A" }] }

theorem C2_witness :
    parseRow wMap9 "EUR" [.vDate 0, .vStr "USD"] wCols9 = .ok none ∧
    (∀ l ∈ [wL2], pyEq l.currency (.vStr "EUR") = true) ∧
    (∃ lines,
      parseLines wMap9 "EUR" [] [[.vDate 0, .vStr "EUR"]] = .ok lines ∧
      (∀ l ∈ lines, pyEq l.currency (.vStr "EUR") = true) ∧
      ("EUR", some "ACC", [wD2]).2.2.length = 1 ∧
      ("EUR", some "ACC",
        [wD2]).2.2.head?.map (fun d => d.transactions.length) =
        some lines.length) :=
  ⟨C2_currency_filter.1 wMap9 "EUR" [.vDate 0, .vStr "USD"] wCols9 wR9
     (by decide) (by decide),
   C2_currency_filter.2.1 wMap9 "EUR" wCols9 [[.vDate 0, .vStr "EUR"]]
     [wL2] (by decide),
   C2_currency_filter.2.2 wMap9 (fun _ => none) "EUR" (some "ACC") "J"
     "s.csv" [] [[.vDate 0, .vStr "EUR"]] ("EUR", some "ACC", [wD2])
     (by decide)⟩

/-- A mapping with timestamp, currency, balance and amount columns,
positional, used as a concrete test fixture. -/
def wMap10 : Mapping :=
  { timestamp_column := some "0"
    currency_column := some "1"
    balance_column := some "2"
    amount_column := some "3"
    no_header := true
    thousands_sep := ","
    decimal_sep := "."
    timestamp_format := fun _ => none }

/-- The resolved columns of `wMap10`. -/
def wCols10 : Columns :=
  { timestamp_column := [0], currency_column := [1],
    balance_column := [2], amount_column := [3] }

/-- The raw row extracted from the cross-currency fixture row with an
unparsable timestamp and balance. -/
def wR10 : RowRaw :=
  { timestamp := .vStr "notadate", currency := .vStr "USD",
    amount := .vDec 5, balance := .vStr "nobal",
    original_currency := .vNone, original_amount := .vNone,
    debit_credit := .vNone, transaction_id := .vNone,
    description := .vNone, notes := .vNone, reference := .vNone,
    partner_name := .vNone, bank_name := .vNone, bank_account := .vNone }

unseal Rat.mul Rat.inv Rat.add Rat.sub Rat.ofScientific in
theorem C10_witness :
    parseRow wMap10 "EUR"
        [.vStr "notadate", .vStr "USD", .vStr "nobal", .vStr "5"]
        wCols10 = .ok none ∧
    parseRow wMap10 "EUR"
        [.vStr "x", .vStr "USD", .vStr "1", .vStr "zz"] wCols10 =
      .error .malformedNumber :=
  ⟨C10_cross_currency_short_circuit.1 wMap10 "EUR"
     [.vStr "notadate", .vStr "USD", .vStr "nobal", .vStr "5"] wCols10
     wR10 .strptimeError .malformedNumber (by decide) (by decide)
     (by decide) (by decide),
   C10_cross_currency_short_circuit.2 wMap10 "EUR"
     [.vStr "x", .vStr "USD", .vStr "1", .vStr "zz"] wCols10
     (.vStr "x") (.vStr "USD") .malformedNumber (by decide) (by decide)
     (by decide)⟩



theorem decodeDecimal_exact {s : String} {q : Rat}
    (h : decodeDecimal s = some q) :
    ∃ (n : Int) (k : Nat), q = (n : Rat) / 10 ^ k := by
  unfold decodeDecimal at h
  cases hu : decodeUnsigned (splitSign (trimList s.data)).2 with
  | none => simp only [hu] at h; exact Option.noConfusion h
  | some t =>
    obtain ⟨mant, fl, rest⟩ := t
    simp only [hu] at h
    cases he : decodeExp rest with
    | none => simp only [he] at h; exact Option.noConfusion h
    | some e =>
      simp only [he, Option.some.injEq] at h
      subst h
      unfold scalePow10
      by_cases hge : 0 ≤ e - (fl : Int)
      · rw [if_pos hge]
        cases hsg : (splitSign (trimList s.data)).1 with
        | false =>
          refine ⟨(mant : Int) * 10 ^ (e - (fl : Int)).toNat, 0, ?_⟩
          rw [if_neg (by simp)]
          push_cast
          ring
        | true =>
          refine ⟨-((mant : Int) * 10 ^ (e - (fl : Int)).toNat), 0, ?_⟩
          rw [if_pos rfl]
          push_cast
          ring
      · rw [if_neg hge]
        cases hsg : (splitSign (trimList s.data)).1 with
        | false =>
          refine ⟨(mant : Int), (-(e - (fl : Int))).toNat, ?_⟩
          rw [if_neg (by simp)]
          push_cast
          ring
        | true =>
          refine ⟨-(mant : Int), (-(e - (fl : Int))).toNat, ?_⟩
          rw [if_pos rfl]
          push_cast
          ring

/-- Unfolding of `_parse_decimal` on text. -/
theorem parseDecimal_str (s : String) (m : Mapping) :
    parseDecimal (.vStr s) m =
      match decodeDecimal (pyReplace (pyReplace s m.thousands_sep "")
          m.decimal_sep ".") with
      | some q => .ok q
      | none => .error .malformedNumber := rfl

unseal Rat.mul Rat.inv Rat.add Rat.sub Rat.ofScientific in
/-- C5: `_parse_decimal` strips every occurrence of the thousands
separator, replaces the decimal separator with `"."`, and returns an
exact decimal value (an integer over a power of ten, never a binary
approximation); typed numeric inputs pass through exactly; in
particular `"1.234,56"` with separators `"."`/`","` parses to exactly
`1234.56`. -/
theorem C5_decimal_parsing :
    (∀ m : Mapping, m.thousands_sep = "." → m.decimal_sep = "," →
      parseDecimal (.vStr "1.234,56") m = .ok (123456 / 100 : Rat) ∧
      parseDecimal (.vStr "1.234.567,89") m =
        .ok (123456789 / 100 : Rat))
    ∧ (∀ (m : Mapping) (q : Rat), parseDecimal (.vDec q) m = .ok q)
    ∧ (∀ (m : Mapping) (q : Rat), parseDecimal (.vFloat q) m = .ok q)
    ∧ (∀ (m : Mapping) (s : String) (q : Rat),
        parseDecimal (.vStr s) m = .ok q →
        ∃ (n : Int) (k : Nat), q = (n : Rat) / 10 ^ k) := by
  refine ⟨?_, fun m q => rfl, fun m q => rfl, ?_⟩
  · intro m h1 h2
    unfold parseDecimal
    rw [h1, h2]
    constructor
    · decide
    · decide
  · intro m s q h
    rw [parseDecimal_str] at h
    cases hd : decodeDecimal
        (pyReplace (pyReplace s m.thousands_sep "") m.decimal_sep ".") with
    | none => simp only [hd] at h; exact Except.noConfusion h
    | some q0 =>
      simp only [hd, Except.ok.injEq] at h
      subst h
      exact decodeDecimal_exact hd



/-- A mapping with separators `"."`/`","`, used as a fixture. -/
def wMap5 : Mapping := { thousands_sep := ".", decimal_sep := "," }

unseal Rat.mul Rat.inv Rat.add Rat.sub Rat.ofScientific in
theorem C5_witness :
    parseDecimal (.vStr "1.234,56") wMap5 = .ok (123456 / 100 : Rat) ∧
    (∃ (n : Int) (k : Nat), (123456 / 100 : Rat) = (n : Rat) / 10 ^ k) :=
  ⟨(C5_decimal_parsing.1 wMap5 rfl rfl).1,
   C5_decimal_parsing.2.2.2 wMap5 "1.234,56" (123456 / 100 : Rat)
     ((C5_decimal_parsing.1 wMap5 rfl rfl).1)⟩

/-- In header mode the token loop fails with `unknownColumn` whenever
any nonempty token is absent from the header. -/
theorem getColumnIndexesGo_unknown {header : List String} :
    ∀ toks : List String, (∃ t ∈ toks, t ≠ "" ∧ t ∉ header) →
      getColumnIndexesGo header false toks = .error .unknownColumn := by
  intro toks
  induction toks with
  | nil => intro h; simp at h
  | cons t ts ih =>
    intro h
    unfold getColumnIndexesGo
    by_cases ht : t = ""
    · rw [if_pos ht]
      apply ih
      rcases h with ⟨t', ht', hne, habs⟩
      rcases List.mem_cons.mp ht' with rfl | hmem
      · exact absurd ht hne
      · exact ⟨t', hmem, hne, habs⟩
    · rw [if_neg ht]
      cases hf : header.findIdx? (fun h => h == t) with
      | none => rfl
      | some i =>
        have hmem : t ∈ header := by
          by_contra habs
          have hnone : header.findIdx? (fun h => h == t) = none :=
            List.findIdx?_eq_none_iff.mpr (fun x hx => by
              by_cases hxe : x = t
              · exact absurd (hxe ▸ hx) habs
              · simp [hxe])
          rw [hnone] at hf
          exact Option.noConfusion hf
        rcases h with ⟨t', ht', hne, habs⟩
        rcases List.mem_cons.mp ht' with rfl | hmem₂
        · exact absurd hmem habs
        · rw [ih ⟨t', hmem₂, hne, habs⟩]
          rfl

/-- In no-header mode the token loop never fails: each token is parsed
with `int()` and non-numeric tokens are silently dropped. -/
theorem getColumnIndexesGo_noheader {header : List String} :
    ∀ toks : List String,
      getColumnIndexesGo header true toks =
        .ok (toks.filterMap
          (fun t => if t = "" then none else pyInt t)) := by
  intro toks
  induction toks with
  | nil => rfl
  | cons t ts ih =>
    unfold getColumnIndexesGo
    by_cases ht : t = ""
    · rw [if_pos ht, ih]
      simp [List.filterMap_cons, ht]
    · rw [if_neg ht, if_pos rfl]
      cases hp : pyInt t with
      | none => simp [List.filterMap_cons, ht, hp, ih]
      | some i => simp [List.filterMap_cons, ht, hp, ih, okBind, pureEq]



/-- Header-mode resolution either succeeds or fails with
`unknownColumn`. -/
theorem getColumnIndexesGo_ok_or_unknown {header : List String} :
    ∀ toks : List String,
      (∃ y, getColumnIndexesGo header false toks = .ok y) ∨
      getColumnIndexesGo header false toks = .error .unknownColumn := by
  intro toks
  induction toks with
  | nil => exact Or.inl ⟨[], rfl⟩
  | cons t ts ih =>
    unfold getColumnIndexesGo
    by_cases ht : t = ""
    · rw [if_pos ht]; exact ih
    · rw [if_neg ht]
      cases hf : header.findIdx? (fun h => h == t) with
      | none => exact Or.inr rfl
      | some i =>
        rcases ih with ⟨y, hy⟩ | herr
        · exact Or.inl ⟨(i : Int) :: y, by simp [hy, okBind, pureEq]⟩
        · exact Or.inr (by simp [herr])

/-- `mapM` of a resolver that only fails with `unknownColumn` fails with
`unknownColumn` when any element fails. -/
theorem mapM_unknown {α : Type} {f : α → Except PErr (List Int)} :
    ∀ {l : List α},
      (∀ s ∈ l, (∃ y, f s = .ok y) ∨ f s = .error .unknownColumn) →
      (∃ s ∈ l, f s = .error .unknownColumn) →
      l.mapM f = .error .unknownColumn := by
  intro l
  induction l with
  | nil => intro _ hex; simp at hex
  | cons a l ih =>
    intro hall hex
    rw [List.mapM_cons]
    rcases hall a (List.mem_cons_self a l) with ⟨y, hy⟩ | herr
    · rw [ebind_ok hy]
      have hex' : ∃ s ∈ l, f s = .error .unknownColumn := by
        rcases hex with ⟨s, hs, herr⟩
        rcases List.mem_cons.mp hs with rfl | hmem
        · rw [hy] at herr; exact Except.noConfusion herr
        · exact ⟨s, hmem, herr⟩
      rw [ih (fun s hs => hall s (List.mem_cons_of_mem a hs)) hex']
      rfl
    · rw [ebind_err herr]

/-- `_parse_lines` fails with `unknownColumn`, for every list of data
rows, as soon as one configured token is absent from the header in
header mode. -/
theorem parseLines_unknownColumn {m : Mapping}
    (hnh : m.no_header = false) {header : List String}
    {spec : Option String} (hspec : spec ∈ columnSpecs m) {tok : String}
    (hmem : tok ∈ specTokens spec) (hne : tok ≠ "") (habs : tok ∉ header)
    (cc : String) (rows : List (List PVal)) :
    parseLines m cc header rows = .error .unknownColumn := by
  have hmapM : (columnSpecs m).mapM
      (fun s => getColumnIndexes header s m.no_header) =
      .error .unknownColumn := by
    apply mapM_unknown
    · intro s _
      rw [hnh]
      exact getColumnIndexesGo_ok_or_unknown (specTokens s)
    · refine ⟨spec, hspec, ?_⟩
      rw [hnh]
      exact getColumnIndexesGo_unknown (specTokens spec)
        ⟨tok, hmem, hne, habs⟩
  have hres : resolveColumns header m = .error .unknownColumn := by
    unfold resolveColumns
    rw [hmapM]
    rfl
  unfold parseLines
  rw [show (if m.no_header then ([] : List String) else header) = header
    by rw [hnh]; rfl]
  rw [ebind_err hres]

/-- C4: in header mode, a configured named token absent from the header
makes `_parse_lines` fail with `UnknownColumn` before any data row is
processed (the failure does not depend on the rows); in no-header mode
every non-numeric token is silently dropped and resolution never fails;
an empty or absent spec resolves to the empty index list. -/
theorem C4_column_resolution :
    (∀ (m : Mapping) (header : List String) (spec : Option String)
        (tok : String) (cc : String) (rows : List (List PVal)),
        m.no_header = false → spec ∈ columnSpecs m →
        tok ∈ specTokens spec → tok ≠ "" → tok ∉ header →
        parseLines m cc header rows = .error .unknownColumn)
    ∧ (∀ (header : List String) (spec : Option String),
        getColumnIndexes header spec true =
          .ok ((specTokens spec).filterMap
            (fun t => if t = "" then none else pyInt t)))
    ∧ (∀ (header : List String) (nh : Bool),
        getColumnIndexes header none nh = .ok [] ∧
        getColumnIndexes header (some "") nh = .ok []) := by
  refine ⟨?_, ?_, ?_⟩
  · intro m header spec tok cc rows hnh hspec hmem hne habs
    exact parseLines_unknownColumn hnh hspec hmem hne habs cc rows
  · intro header spec
    exact getColumnIndexesGo_noheader (specTokens spec)
  · intro header nh
    cases nh <;> exact ⟨rfl, rfl⟩

/-- A header-mode mapping naming a column that the fixture header does
not contain. -/
def wMap4 : Mapping :=
  { timestamp_column := some "Missing"
    timestamp_format := fun _ => none }

theorem C4_witness :
    parseLines wMap4 "EUR" ["Date", "Amount"] [[.vStr "x"]] =
      .error .unknownColumn ∧
    getColumnIndexes [] (some "1,x,2") true = .ok [1, 2] ∧
    getColumnIndexes ["Date"] none false = .ok [] :=
  ⟨C4_column_resolution.1 wMap4 ["Date", "Amount"] (some "Missing")
     "Missing" "EUR" [[.vStr "x"]] rfl (by simp [columnSpecs, wMap4])
     (by decide) (by decide) (by decide),
   (C4_column_resolution.2.1 [] (some "1,x,2")).trans (by decide),
   (C4_column_resolution.2.2 ["Date"] false).1⟩




/-- A no-header mapping with debit and indicator columns, fixture for
the amount-priority claim. -/
def wMap1 : Mapping :=
  { timestamp_column := some "0"
    amount_debit_column := some "1"
    debit_credit_column := some "2"
    no_header := true
    thousands_sep := ","
    decimal_sep := "."
    debit_value := "D"
    timestamp_format := fun _ => none }

/-- The resolved columns of `wMap1`. -/
def wCols1 : Columns :=
  { timestamp_column := [0], amount_debit_column := [1],
    debit_credit_column := [2] }

/-- The line parsed from the debit-with-indicator fixture row. -/
def wL1 : Line :=
  { timestamp := 3, amount := .vDec (-10), currency := .vStr "EUR",
    original_amount := .vFloat 0, original_currency := .vNone }

unseal Rat.mul Rat.inv Rat.add Rat.sub Rat.ofScientific in
theorem C1_witness : numVal wL1.amount = some (-10 : Rat) :=
  C1_amount_priority wMap1 "EUR" [.vDate 3, .vStr "10.00", .vStr "D"]
    wCols1 wL1 none (some 10) none (.vStr "D") (-10) (by decide)
    (by decide) (by decide) (by decide) (by decide) (by decide)

/-- `_convert_line_to_transactions` returns exactly one transaction,
dated at the line's timestamp. -/
theorem convert_eq_singleton (fc : PVal → Option Int) (l : Line) :
    ∃ t, convertLineToTransactions fc l = [t] ∧ t.date = l.timestamp :=
  ⟨_, rfl, rfl⟩

/-- Every transaction in the flattened conversion comes from a line and
carries its timestamp as date. -/
theorem mem_flatMap_dates {fc : PVal → Option Int} {ls : List Line}
    {b : Transaction}
    (hb : b ∈ ls.flatMap (convertLineToTransactions fc)) :
    ∃ l' ∈ ls, b.date = l'.timestamp := by
  rcases List.mem_flatMap.mp hb with ⟨l', hl', hbt⟩
  obtain ⟨t, ht, htd⟩ := convert_eq_singleton fc l'
  rw [ht, List.mem_singleton] at hbt
  subst hbt
  exact ⟨l', hl', htd⟩

/-- Pairwise order on timestamps transfers to the converted
transactions. -/
theorem pairwise_dates {fc : PVal → Option Int} {ls : List Line}
    (h : ls.Pairwise lineLE) :
    (ls.flatMap (convertLineToTransactions fc)).Pairwise
      (fun t u => t.date ≤ u.date) := by
  induction h with
  | nil => simp
  | @cons x l hrel hpw ih =>
    rw [List.flatMap_cons]
    apply List.pairwise_append.mpr
    refine ⟨?_, ih, ?_⟩
    · obtain ⟨t, ht, -⟩ := convert_eq_singleton fc x
      rw [ht]
      simp
    · intro a ha b hb
      obtain ⟨t, ht, htd⟩ := convert_eq_singleton fc x
      rw [ht, List.mem_singleton] at ha
      subst ha
      obtain ⟨l', hl', hbd⟩ := mem_flatMap_dates hb
      rw [htd, hbd]
      exact hrel l' hl'

/-- C6: the transactions of the returned statement are non-decreasing
by date (the line timestamp), and the sort is stable: a sublist of the
parsed lines whose timestamps are all equal stays a sublist of the
sorted line list, preserving source order. -/
theorem C6_sorted_stable :
    (∀ (m : Mapping) (fc : PVal → Option Int) (cc : String)
        (acct : Option String) (jc fn : String) (header : List String)
        (rows : List (List PVal))
        (res : String × Option String × List StmtData),
        parse m fc cc acct jc fn header rows = .ok res →
        ∀ d ∈ res.2.2,
          d.transactions.Pairwise (fun t u => t.date ≤ u.date))
    ∧ (∀ (lines sub : List Line),
        sub.Sublist lines →
        sub.Pairwise (fun a b => a.timestamp = b.timestamp) →
        sub.Sublist (sortLines lines)) := by
  constructor
  · intro m fc cc acct jc fn header rows res h d hd
    unfold parse at h
    cases hl : parseLines m cc header rows with
    | error e => rw [ebind_err hl] at h; simp at h
    | ok lines =>
    rw [ebind_ok hl] at h
    by_cases hemp : lines = []
    · subst hemp
      rw [assemble_empty] at h
      simp only [Except.ok.injEq] at h
      rw [← h] at hd
      simp only [List.mem_singleton] at hd
      subst hd
      simp
    · obtain ⟨fl, bal, -, hres⟩ := assemble_ok_inv hemp h
      subst hres
      simp only [List.mem_singleton] at hd
      subst hd
      exact pairwise_dates (List.sorted_insertionSort lineLE lines)
  · intro lines sub hsub hpw
    exact List.sublist_insertionSort
      (hpw.imp (fun h => le_of_eq h)) hsub



/-- Two fixture lines with equal timestamps, distinguished by their
descriptions. -/
def wLa : Line :=
  { timestamp := 7, amount := .vInt 0, currency := .vStr "EUR",
    original_amount := .vFloat 0, original_currency := .vNone,
    description := some (.vStr "a") }

def wLb : Line :=
  { timestamp := 7, amount := .vInt 0, currency := .vStr "EUR",
    original_amount := .vFloat 0, original_currency := .vNone,
    description := some (.vStr "b") }

/-- The statement assembled from the two-row out-of-order fixture. -/
def wD6 : StmtData :=
  { date := some 0, name := some "J: s.csv",
    transactions :=
      [{ date := 3, amount := .vInt 0, payment_ref := .vStr "N/A" },
       { date := 5, amount := .vInt 0, payment_ref := .vStr "N/A" }] }

theorem C6_witness :
    (∀ d ∈ ("EUR", (none : Option String), [wD6]).2.2,
      d.transactions.Pairwise (fun t u => t.date ≤ u.date)) ∧
    [wLa, wLb].Sublist (sortLines [wLa, wLb]) :=
  ⟨C6_sorted_stable.1 wMap9 (fun _ => none) "EUR" none "J" "s.csv" []
     [[.vDate 5, .vStr "EUR"], [.vDate 3, .vStr "EUR"]]
     ("EUR", none, [wD6]) (by decide),
   C6_sorted_stable.2 [wLa, wLb] [wLa, wLb] (List.Sublist.refl _)
     (by decide)⟩


/-- C3 (amended): the returned balances are the `float()` (binary64)
roundings of the exact decimal values — `balance_start` of
`balance(first sorted line) - amount(first sorted line)` and
`balance_end_real` of `balance(last sorted line)`; they equal the exact
values only when these are binary64-representable.  When no balance
column is configured neither key is present. -/
theorem C3_amended_balances (m : Mapping) (fc : PVal → Option Int)
    (cc : String) (acct : Option String) (jc fn : String)
    (header : List String) (rows : List (List PVal))
    (lines : List Line) (res : String × Option String × List StmtData)
    (first last : Line) (b1 bn a1 : Rat)
    (hl : parseLines m cc header rows = .ok lines)
    (hne : lines ≠ [])
    (hrun : parse m fc cc acct jc fn header rows = .ok res)
    (hf : (sortLines lines).head? = some first)
    (hlast : (sortLines lines).getLast? = some last)
    (hb1 : first.balance = some b1)
    (hbn : last.balance = some bn)
    (ha : numVal first.amount = some a1) :
    (optStrTruthy m.balance_column = true →
      ∃ d, res.2.2 = [d] ∧
        d.balance_start = some (roundFloat (b1 - a1)) ∧
        d.balance_end_real = some (roundFloat bn)) ∧
    (optStrTruthy m.balance_column = false →
      ∃ d, res.2.2 = [d] ∧
        d.balance_start = none ∧ d.balance_end_real = none) := by
  unfold parse at hrun
  rw [ebind_ok hl] at hrun
  constructor
  · intro hb
    have hass := @assemble_balance_true m fc cc acct jc fn lines first
      last b1 a1 bn hne hf hb hb1 ha hlast hbn
    rw [hass] at hrun
    simp only [Except.ok.injEq] at hrun
    rw [← hrun]
    exact ⟨_, rfl, rfl, rfl⟩
  · intro hb
    have hass := @assemble_balance_false m fc cc acct jc fn lines first
      hne hf hb
    rw [hass] at hrun
    simp only [Except.ok.injEq] at hrun
    rw [← hrun]
    exact ⟨_, rfl, rfl, rfl⟩

/-- A no-header mapping with timestamp and balance columns. -/
def wMap3 : Mapping :=
  { timestamp_column := some "0"
    balance_column := some "1"
    no_header := true
    thousands_sep := ","
    decimal_sep := "."
    timestamp_format := fun _ => none }

/-- The line parsed from the balance-`"0.1"` fixture row. -/
def wL3 : Line :=
  { timestamp := 0, amount := .vInt 0, currency := .vStr "EUR",
    original_amount := .vFloat 0, original_currency := .vNone,
    balance := some (1 / 10) }

/-- The statement assembled from the balance-`"0.1"` fixture: the
balances hold the binary64 value of `0.1`, not `1/10`. -/
def wD3 : StmtData :=
  { date := some 0, name := some "J: f",
    balance_start := some (3602879701896397 / 36028797018963968)
    balance_end_real := some (3602879701896397 / 36028797018963968)
    transactions :=
      [{ date := 0, amount := .vInt 0, payment_ref := .vStr "N/A" }] }

unseal Rat.mul Rat.inv Rat.add Rat.sub Rat.ofScientific in
theorem C3_counterexample :
    parseLines wMap3 "EUR" [] [[.vDate 0, .vStr "0.1"]] = .ok [wL3] ∧
    wL3.balance = some (1 / 10 : Rat) ∧
    numVal wL3.amount = some 0 ∧
    parse wMap3 (fun _ => none) "EUR" none "J" "f" []
        [[.vDate 0, .vStr "0.1"]] = .ok ("EUR", none, [wD3]) ∧
    wD3.balance_start ≠ some ((1 / 10 : Rat) - 0) := by
  refine ⟨by decide, by decide, by decide, by decide, ?_⟩
  intro h
  simp only [wD3, Option.some.injEq] at h
  revert h
  decide

/-- The line parsed from the balance-`"100"` fixture row. -/
def wL3w : Line :=
  { timestamp := 0, amount := .vInt 0, currency := .vStr "EUR",
    original_amount := .vFloat 0, original_currency := .vNone,
    balance := some 100 }

/-- The statement assembled from the balance-`"100"` fixture. -/
def wD3w : StmtData :=
  { date := some 0, name := some "J: f",
    balance_start := some 100
    balance_end_real := some 100
    transactions :=
      [{ date := 0, amount := .vInt 0, payment_ref := .vStr "N/A" }] }

unseal Rat.mul Rat.inv Rat.add Rat.sub Rat.ofScientific in
theorem C3_witness :
    ∃ d, ("EUR", (none : Option String), [wD3w]).2.2 = [d] ∧
      d.balance_start = some (roundFloat ((100 : Rat) - 0)) ∧
      d.balance_end_real = some (roundFloat (100 : Rat)) :=
  (C3_amended_balances wMap3 (fun _ => none) "EUR" none "J" "f" []
    [[.vDate 0, .vStr "100"]] [wL3w] ("EUR", none, [wD3w]) wL3w wL3w
    100 100 0 (by decide) (by decide) (by decide) (by decide)
    (by decide) (by decide) (by decide) (by decide)).1 (by decide)



/-- C7 (amended): when the line's foreign currency equals its home
currency the foreign designation is dropped — the transaction carries no
foreign_currency_id and no amount_currency — and the locally zeroed
foreign amount is not emitted; the home-amount adoption in the source
rebinds only a local variable, so the output transaction's amount stays
the line's amount even when it is zero and the foreign amount is not. -/
theorem C7_amended_drop_foreign (fc : PVal → Option Int) (line : Line)
    (hdrop : pyEq line.original_currency line.currency = true) :
    ∃ t, convertLineToTransactions fc line = [t] ∧
      t.foreign_currency_id = none ∧ t.amount_currency = none ∧
      t.amount = line.amount := by
  refine ⟨_, rfl, ?_, ?_, rfl⟩
  · simp [convertLineToTransactions, hdrop, pyTruthy]
  · simp [convertLineToTransactions, hdrop, pyTruthy]

/-- A line whose foreign currency equals its home currency, with a zero
home amount and a non-zero foreign amount. -/
def wL7 : Line :=
  { timestamp := 0, amount := .vInt 0, currency := .vStr "EUR",
    original_amount := .vDec 5, original_currency := .vStr "EUR" }

/-- The transaction emitted for `wL7`: its amount stays `0`. -/
def wT7 : Transaction :=
  { date := 0, amount := .vInt 0, payment_ref := .vStr "N/A" }

unseal Rat.mul Rat.inv Rat.add Rat.sub Rat.ofScientific in
theorem C7_counterexample :
    convertLineToTransactions (fun _ => none) wL7 = [wT7] ∧
    pyTruthy wL7.amount = false ∧
    pyEq wL7.original_currency wL7.currency = true ∧
    numVal wL7.original_amount = some (5 : Rat) ∧
    numVal wT7.amount = some (0 : Rat) ∧
    (0 : Rat) ≠ 5 := by
  decide

theorem C7_witness :
    ∃ t, convertLineToTransactions (fun _ => none) wL7 = [t] ∧
      t.foreign_currency_id = none ∧ t.amount_currency = none ∧
      t.amount = wL7.amount :=
  C7_amended_drop_foreign (fun _ => none) wL7 (by decide)

/-- C8 (amended): a row in which none of the explicit amount, debit or
credit columns is configured resolves its amount to the integer `0` and
is not rejected by this module: the parsed line carries amount `0` and
`_convert_line_to_transactions` still emits exactly one transaction with
amount `0` for it (any rejection by field defaults would happen outside
this module). -/
theorem C8_amended_zero_amount (m : Mapping) (cc : String)
    (values : List PVal) (cols : Columns) (line : Line)
    (fc : PVal → Option Int)
    (hA : cols.amount_column = [])
    (hD : cols.amount_debit_column = [])
    (hC : cols.amount_credit_column = [])
    (hrun : parseRow m cc values cols = .ok (some line)) :
    line.amount = .vInt 0 ∧
    ∃ t, convertLineToTransactions fc line = [t] ∧
      t.amount = .vInt 0 := by
  obtain ⟨r, he, hf⟩ := parseRow_ok_some_inv hrun
  obtain ⟨-, -, hamt, -, -, -, -, -, -, -, -, -, -, -⟩ :=
    extractRow_ok_inv he
  have hra : r.amount = .vInt 0 := by
    have h2 := amountStage_eval (m := m)
      (show decimalColumn m values cols.amount_column = .ok (optDec none)
        by rw [hA]; rfl)
      (show decimalColumn m values cols.amount_debit_column =
          .ok (optDec none) by rw [hD]; rfl)
      (show decimalColumn m values cols.amount_credit_column =
          .ok (optDec none) by rw [hC]; rfl)
    rw [hamt] at h2
    exact (Except.ok.injEq _ _).mp h2
  obtain ⟨-, -, -, hind, -, -, -, -, -, -, -⟩ := finishRow_ok_some_inv hf
  rw [hra] at hind
  unfold indicatorStage at hind
  have hla : line.amount = .vInt 0 := by
    cases hdc : pyTruthy r.debit_credit with
    | true =>
      rw [if_pos (by simp [hdc])] at hind
      simp only [pyCopyAbs] at hind
      rw [ebind_err rfl] at hind
      exact absurd hind (by simp)
    | false =>
      rw [if_neg (by simp [hdc])] at hind
      simp only [pureEq, Except.ok.injEq] at hind
      exact hind.symm
  refine ⟨hla, _, rfl, ?_⟩
  show line.amount = PVal.vInt 0
  exact hla



/-- A mapping configuring only a timestamp column. -/
def wMap8 : Mapping :=
  { timestamp_column := some "0"
    no_header := true
    timestamp_format := fun _ => none }

/-- The resolved columns of `wMap8`. -/
def wCols8 : Columns := { timestamp_column := [0] }

/-- The transaction emitted for the amount-less fixture row. -/
def wT8 : Transaction :=
  { date := 5, amount := .vInt 0, payment_ref := .vStr "N/A" }

/-- The statement assembled from the amount-less fixture row. -/
def wD8 : StmtData :=
  { date := some 0, name := some "J: f", transactions := [wT8] }

theorem C8_counterexample :
    parse wMap8 (fun _ => none) "EUR" none "J" "f" [] [[.vDate 5]] =
      .ok ("EUR", none, [wD8]) ∧
    wD8.transactions.length = 1 ∧
    numVal wT8.amount = some (0 : Rat) := by
  decide

/-- The line parsed from the amount-less fixture row. -/
def wL8 : Line :=
  { timestamp := 5, amount := .vInt 0, currency := .vStr "EUR",
    original_amount := .vFloat 0, original_currency := .vNone }

theorem C8_witness :
    wL8.amount = .vInt 0 ∧
    ∃ t, convertLineToTransactions (fun _ => none) wL8 = [t] ∧
      t.amount = .vInt 0 :=
  C8_amended_zero_amount wMap8 "EUR" [.vDate 5] wCols8 wL8
    (fun _ => none) rfl rfl rfl (by decide)

end SheetParser
